import Mathlib

/-!
Verification development for the blog-backend admin API
(src/shared/auth.py, src/shared/config.py, src/shared/db.py, src/shared/s3.py,
src/admin/handler.py, src/admin/routes/{blog,playbook,upload,leetcode}.py).

DynamoDB items are embedded as flat association lists of attribute values; a table
is a list of items (the store keys every item by its "PK"/"SK" string attributes).
The S3 bucket is embedded as the list of object keys it currently holds.
now_iso() timestamps and the external JWT decoder are passed in as parameters.
-/

/-- A DynamoDB attribute value: string, number, list, or map. -/
inductive AttrVal where
  | s (v : String)
  | n (v : Int)
  | l (vs : List AttrVal)
  | m (fields : List (String × AttrVal))

/-- A stored document: a flat map of attribute name to value, as written by the routes. -/
abbrev Item := List (String × AttrVal)

/-- A DynamoDB table: the list of items it holds. -/
abbrev Table := List Item

/-- Field lookup in an item (first binding wins, as in a Python dict). -/
def getAttr : List (String × AttrVal) → String → Option AttrVal
  | [], _ => none
  | (k, v) :: rest, f => if k = f then some v else getAttr rest f

/-- Dict assignment item[k] = v: replace the binding if present, else append it. -/
def setField (it : Item) (k : String) (v : AttrVal) : Item :=
  if it.any (fun p => decide (p.1 = k)) then
    it.map (fun p => if p.1 = k then (k, v) else p)
  else
    it ++ [(k, v)]

/-- Sequential dict assignments (left to right). -/
def setFields (it : Item) : List (String × AttrVal) → Item
  | [] => it
  | (k, v) :: rest => setFields (setField it k v) rest

def asStr : AttrVal → Option String
  | .s v => some v
  | _ => none

/-- The "PK" attribute of an item, when it is a string. -/
def itemPK (it : Item) : Option String := (getAttr it "PK").bind asStr

/-- The "SK" attribute of an item, when it is a string. -/
def itemSK (it : Item) : Option String := (getAttr it "SK").bind asStr

/-- The (PK, SK) primary key of an item, when both attributes are strings. -/
def itemKeyStrings (it : Item) : Option (String × String) :=
  match itemPK it, itemSK it with
  | some p, some q => some (p, q)
  | _, _ => none

/-- table.get_item(Key={"PK": pk, "SK": sk}): the item with that primary key. -/
def get_item : Table → String → String → Option Item
  | [], _, _ => none
  | it :: rest, pk, sk =>
    if itemPK it = some pk ∧ itemSK it = some sk then some it else get_item rest pk sk

/-- table.delete_item(Key={"PK": pk, "SK": sk}). -/
def delete_item (t : Table) (pk sk : String) : Table :=
  t.filter (fun it => decide (¬(itemPK it = some pk ∧ itemSK it = some sk)))

/-- table.put_item(Item=item): overwrite by the item's own primary key. -/
def put_item (t : Table) (item : Item) : Table :=
  match itemKeyStrings item with
  | some pq => item :: delete_item t pq.1 pq.2
  | none => item :: t

/-- Sequential puts, as issued by a table.batch_writer() block. -/
def putAll (t : Table) : List Item → Table
  | [] => t
  | it :: rest => putAll (put_item t it) rest

/-- table.query(KeyConditionExpression=Key("PK").eq(pk)): all items of one partition. -/
def table_query (t : Table) (pk : String) : List Item :=
  t.filter (fun it => decide (itemPK it = some pk))

/-- Helper for db.build_update_expression: the enumerate(data.items()) loop, carrying
the running placeholder index i ("#ki" / ":vi"). -/
def buildParts : Nat → List (String × AttrVal) →
    List String × List (String × String) × List (String × AttrVal)
  | _, [] => ([], [], [])
  | i, (k, v) :: rest =>
    let r := buildParts (i + 1) rest
    (("#k" ++ toString i ++ " = :v" ++ toString i) :: r.1,
     (("#k" ++ toString i, k) :: r.2.1,
      ((":v" ++ toString i, v) :: r.2.2)))

/-- db.build_update_expression: returns
(UpdateExpression, ExpressionAttributeNames, ExpressionAttributeValues). -/
def build_update_expression (data : List (String × AttrVal)) :
    String × List (String × String) × List (String × AttrVal) :=
  let r := buildParts 0 data
  ("SET " ++ String.intercalate ", " r.1, r.2.1, r.2.2)

/-- Modelled from the spec: the document store itself is an external collaborator (§1
OUT OF SCOPE), and §4.3 specifies that applying the builder's SET directive "set[s]
exactly those fields" on the stored document. build_update_expression produces the
name and value dictionaries index-aligned, so the store's application of the
directive sets, for each aliased clause, the aliased field to its aliased value. -/
def applyDirective (dir : String × List (String × String) × List (String × AttrVal))
    (it : Item) : Item :=
  setFields it ((dir.2.1.zip dir.2.2).map (fun p => (p.1.2, p.2.2)))

/-- table.update_item(Key=..., UpdateExpression=..., names, values): apply the SET
directive to the keyed item (DynamoDB creates the item when it is absent). -/
def update_item (t : Table)
    (pk sk : String) (dir : String × List (String × String) × List (String × AttrVal)) :
    Table :=
  if (get_item t pk sk).isSome then
    t.map (fun it =>
      if itemPK it = some pk ∧ itemSK it = some sk then applyDirective dir it else it)
  else
    applyDirective dir [("PK", AttrVal.s pk), ("SK", AttrVal.s sk)] :: t

/-- s3.delete_s3_objects: batch-delete object keys; no-op on the empty list. -/
def delete_s3_objects (keys : List String) (s3 : List String) : List String :=
  if keys.isEmpty then s3 else s3.filter (fun k => decide (¬ k ∈ keys))

/-- shared.models.Media (pydantic model). -/
structure Media where
  key : String
  s3Key : String
  type : String

/-- Media.model_dump(): the plain dict stored inside a media list. -/
def Media.model_dump (m : Media) : AttrVal :=
  .m [("key", .s m.key), ("s3Key", .s m.s3Key), ("type", .s m.type)]

/-- [m.model_dump() for m in media]. -/
def mediaDump (ms : List Media) : AttrVal := .l (ms.map Media.model_dump)

/-- shared.models.PostCreate. -/
structure PostCreate where
  slug : String
  title : String
  date : String
  excerpt : String
  tags : List String
  content : String
  media : List Media

/-- shared.models.PostUpdate (every field optional). -/
structure PostUpdate where
  title : Option String
  date : Option String
  excerpt : Option String
  tags : Option (List String)
  content : Option String
  media : Option (List Media)

/-- One field of a pydantic model_dump(exclude_none=True): present fields contribute
one binding, None fields contribute nothing. -/
def optField (name : String) : Option AttrVal → List (String × AttrVal)
  | some v => [(name, v)]
  | none => []

/-- PostUpdate.model_dump(exclude_none=True), fields in declaration order; nested
Media models being dumped to plain dicts (routes/blog.py lines 70-71 re-serialize
the media entry to the identical value, so it is folded in here). -/
def PostUpdate.model_dump (u : PostUpdate) : List (String × AttrVal) :=
  optField "title" (u.title.map AttrVal.s) ++
  optField "date" (u.date.map AttrVal.s) ++
  optField "excerpt" (u.excerpt.map AttrVal.s) ++
  optField "tags" (u.tags.map (fun ts => AttrVal.l (ts.map AttrVal.s))) ++
  optField "content" (u.content.map AttrVal.s) ++
  optField "media" (u.media.map mediaDump)

/-- shared.models.ProblemCreate. -/
structure ProblemCreate where
  id : String
  title : String
  leetcodeUrl : String
  difficulty : String
  status : String
  pseudocode : String
  media : List Media
  tags : Option (List String)
  lastSolved : Option String
  nextReview : Option String

/-- shared.models.ModuleCreate. -/
structure ModuleCreate where
  slug : String
  title : String
  description : String
  content : String
  order : Int
  media : List Media
  problems : List ProblemCreate

/-- shared.models.ModuleUpdate. -/
structure ModuleUpdate where
  title : Option String
  description : Option String
  content : Option String
  order : Option Int
  media : Option (List Media)
  upsert_problems : Option (List ProblemCreate)
  delete_problem_ids : Option (List String)

/-- shared.models.UploadUrlRequest. -/
structure UploadUrlRequest where
  filename : String
  content_type : String
  entity_type : String
  entity_slug : String
  problem_id : Option String

/-- An HTTPException: status code and detail (the WWW-Authenticate header on the
401 responses is presentation only and is not modelled). -/
structure HErr where
  status : Nat
  detail : String
deriving DecidableEq

/-- A {slug, message} route response body. -/
structure RouteResp where
  slug : String
  message : String
deriving DecidableEq

/-- The modelled UploadUrlResponse: the canonical object key and the caller-supplied
filename; the url field is the external presigned artifact and is represented by the
presign-call trace returned alongside. -/
structure UploadResp where
  s3Key : String
  key : String
deriving DecidableEq

/-- Status code of an error outcome (none when the call succeeded). -/
def errStatus {α : Type} : Except HErr α → Option Nat
  | .error e => some e.status
  | .ok _ => none

/-- Outcome of jose's jwt.decode on a bearer token: a valid payload (with its "email"
claim, absent when the payload has none), an expired signature, or any other failure. -/
inductive JwtResult where
  | valid (email : Option String)
  | expired
  | invalid

/-- token.startswith("btf_"): string prefix test, embedded over the character list
so that it evaluates inside the kernel. -/
def strStartsWith (s pre : String) : Bool := pre.data.isPrefixOf s.data

/-- str.lower(): character-wise lowercasing, embedded over the character list so
that it evaluates inside the kernel (identical to String.toLower for the ASCII
emails this API compares). -/
def strToLower (s : String) : String := ⟨s.data.map Char.toLower⟩

/-- shared.auth.verify_admin_token. Configuration values are passed as parameters:
ADMIN_EMAIL and NEXTAUTH_SECRET follow config.py (os.getenv with default "", so ""
means unconfigured). Modelled from the spec: MCP_API_KEY is imported by
src/src/shared/auth.py but no definition of it exists under src/ (it is absent from
src/src/shared/config.py); per spec §4.1 it is the configured static service key,
"Missing server-side configuration for this key → fail Misconfigured", represented
like the other two secrets as a string with "" meaning unconfigured. -/
def verify_admin_token (mcpApiKey nextauthSecret adminEmail : String)
    (decodeJwt : String → JwtResult) (token : String) : Except HErr String :=
  if strStartsWith token "btf_" then
    if mcpApiKey = "" then .error ⟨500, "MCP_API_KEY not configured"⟩
    else if token = mcpApiKey then .ok "mcp-server"
    else .error ⟨401, "Invalid API key"⟩
  else
    if nextauthSecret = "" then .error ⟨500, "NEXTAUTH_SECRET not configured"⟩
    else
      match decodeJwt token with
      | .expired => .error ⟨401, "Token expired"⟩
      | .invalid => .error ⟨401, "Invalid token"⟩
      | .valid email? =>
        match email? with
        | none => .error ⟨403, "Not authorized"⟩
        | some email =>
          if email = "" then .error ⟨403, "Not authorized"⟩
          else if strToLower email = strToLower adminEmail then .ok email
          else .error ⟨403, "Not authorized"⟩

/-- routes/upload.py _ALLOWED_ENTITY_TYPES. -/
def allowedEntityTypes : List String := ["blog", "playbook"]

/-- routes/upload.py _ALLOWED_CONTENT_TYPES. -/
def allowedContentTypes : List String :=
  ["image/jpeg", "image/png", "image/gif", "image/webp", "image/svg+xml"]

/-- s3.build_s3_key. The problem_id branch follows Python truthiness: None and ""
both select the module-level key. The error is the ValueError raised for an unknown
entity_type. -/
def build_s3_key (entity_type entity_slug filename : String) (problem_id : Option String) :
    Except String String :=
  if entity_type = "blog" then
    .ok ("images/blog/" ++ entity_slug ++ "/" ++ filename)
  else if entity_type = "playbook" then
    match problem_id with
    | some p =>
      if p = "" then .ok ("images/playbook/" ++ entity_slug ++ "/" ++ filename)
      else .ok ("images/playbook/" ++ entity_slug ++ "/problems/" ++ p ++ "/" ++ filename)
    | none => .ok ("images/playbook/" ++ entity_slug ++ "/" ++ filename)
  else
    .error ("Unknown entity_type: " ++ entity_type ++ ". Must be blog or playbook.")

/-- routes/upload.py get_upload_url. Returns the response outcome together with the
trace of generate_presigned_upload_url calls (pairs of object key and content type);
an unhandled ValueError from build_s3_key would surface as a 500 (unreachable after
the entity_type check). Error detail strings paraphrase the f-string set formatting. -/
def get_upload_url (req : UploadUrlRequest) :
    Except HErr UploadResp × List (String × String) :=
  if req.entity_type ∈ allowedEntityTypes then
    if req.content_type ∈ allowedContentTypes then
      match build_s3_key req.entity_type req.entity_slug req.filename req.problem_id with
      | .ok k => (.ok ⟨k, req.filename⟩, [(k, req.content_type)])
      | .error e => (.error ⟨500, e⟩, [])
    else (.error ⟨400, "content_type must be one of the allowed image types"⟩, [])
  else (.error ⟨400, "entity_type must be one of blog, playbook"⟩, [])

/-- routes/blog.py _pk. -/
def blogPk (slug : String) : String := "BLOG#" ++ slug

/-- The item written by routes/blog.py create_post. -/
def postItem (post : PostCreate) (ts : String) : Item :=
  [("PK", .s (blogPk post.slug)), ("SK", .s "METADATA"),
   ("title", .s post.title), ("date", .s post.date), ("excerpt", .s post.excerpt),
   ("tags", .l (post.tags.map AttrVal.s)), ("content", .s post.content),
   ("media", mediaDump post.media), ("createdAt", .s ts), ("updatedAt", .s ts)]

/-- routes/blog.py create_post (POST /api/blog). -/
def create_post (post : PostCreate) (ts : String) (t : Table) :
    Except HErr RouteResp × Table :=
  match get_item t (blogPk post.slug) "METADATA" with
  | some _ =>
    (.error ⟨409, "Post with slug \x27" ++ post.slug ++ "\x27 already exists"⟩, t)
  | none => (.ok ⟨post.slug, "Post created"⟩, put_item t (postItem post ts))

/-- routes/blog.py update_post (PUT /api/blog/slug). -/
def update_post (slug : String) (u : PostUpdate) (ts : String) (t : Table) :
    Except HErr RouteResp × Table :=
  match get_item t (blogPk slug) "METADATA" with
  | none => (.error ⟨404, "Post not found"⟩, t)
  | some _ =>
    let data := u.model_dump
    if data.isEmpty then (.error ⟨400, "No fields to update"⟩, t)
    else
      let data := data ++ [("updatedAt", AttrVal.s ts)]
      (.ok ⟨slug, "Post updated"⟩,
       update_item t (blogPk slug) "METADATA" (build_update_expression data))

/-- routes/playbook.py _pk. -/
def playbookPk (slug : String) : String := "PLAYBOOK#" ++ slug

/-- routes/playbook.py _problem_sk. -/
def problemSk (problem_id : String) : String := "PROBLEM#" ++ problem_id

/-- routes/playbook.py _problem_item. The ts argument is an AttrVal because
update_module passes the raw createdAt attribute read from an existing item. -/
def problem_item (slug : String) (p : ProblemCreate) (ts : AttrVal) : Item :=
  [("PK", .s (playbookPk slug)), ("SK", .s (problemSk p.id)),
   ("collection", .s "PLAYBOOK"), ("title", .s p.title),
   ("leetcodeUrl", .s p.leetcodeUrl), ("difficulty", .s p.difficulty),
   ("status", .s p.status), ("pseudocode", .s p.pseudocode),
   ("media", mediaDump p.media), ("createdAt", ts), ("updatedAt", ts)] ++
  (match p.tags with
   | some tg => [("tags", AttrVal.l (tg.map AttrVal.s))]
   | none => []) ++
  (match p.lastSolved with | some v => [("lastSolved", AttrVal.s v)] | none => []) ++
  (match p.nextReview with | some v => [("nextReview", AttrVal.s v)] | none => [])

/-- routes/playbook.py _collect_s3_keys restricted to one item: every media entry
carrying an "s3Key" (the written documents always store it as a string). -/
def mediaS3Keys (it : Item) : List String :=
  match getAttr it "media" with
  | some (.l ms) =>
    ms.filterMap (fun m =>
      match m with
      | .m fs =>
        match getAttr fs "s3Key" with
        | some (.s k) => some k
        | _ => none
      | _ => none)
  | _ => []

/-- routes/playbook.py _collect_s3_keys. -/
def collect_s3_keys : List Item → List String
  | [] => []
  | it :: rest => mediaS3Keys it ++ collect_s3_keys rest

/-- The module metadata item written by routes/playbook.py create_module. -/
def moduleItem (module : ModuleCreate) (ts : String) : Item :=
  [("PK", .s (playbookPk module.slug)), ("SK", .s "METADATA"),
   ("collection", .s "PLAYBOOK"), ("title", .s module.title),
   ("description", .s module.description), ("content", .s module.content),
   ("order", .n module.order), ("media", mediaDump module.media),
   ("createdAt", .s ts), ("updatedAt", .s ts)]

/-- routes/playbook.py create_module (POST /api/playbook). -/
def create_module (module : ModuleCreate) (ts : String) (t : Table) :
    Except HErr RouteResp × Table :=
  match get_item t (playbookPk module.slug) "METADATA" with
  | some _ =>
    (.error ⟨409, "Module with slug \x27" ++ module.slug ++ "\x27 already exists"⟩, t)
  | none =>
    (.ok ⟨module.slug, "Module created"⟩,
     putAll t
       (moduleItem module ts ::
        module.problems.map (fun p => problem_item module.slug p (AttrVal.s ts))))

/-- ModuleUpdate.model_dump(exclude_none=True, exclude={upsert_problems,
delete_problem_ids}), fields in declaration order. -/
def ModuleUpdate.module_fields_dump (u : ModuleUpdate) : List (String × AttrVal) :=
  optField "title" (u.title.map AttrVal.s) ++
  optField "description" (u.description.map AttrVal.s) ++
  optField "content" (u.content.map AttrVal.s) ++
  optField "order" (u.order.map AttrVal.n) ++
  optField "media" (u.media.map mediaDump)

/-- The body of update_module's upsert loop: read the existing child document to
preserve its createdAt (a KeyError surfaces as a 500 when an existing child has no
createdAt attribute), build the full problem item, refresh updatedAt. -/
def buildUpsertItem (slug ts : String) (t : Table) (p : ProblemCreate) :
    Except HErr Item :=
  match get_item t (playbookPk slug) (problemSk p.id) with
  | some e =>
    match getAttr e "createdAt" with
    | some c => .ok (setField (problem_item slug p c) "updatedAt" (AttrVal.s ts))
    | none => .error ⟨500, "KeyError: createdAt"⟩
  | none => .ok (setField (problem_item slug p (AttrVal.s ts)) "updatedAt" (AttrVal.s ts))

/-- update_module's upsert loop: the reads all see the table as it stands when the
batch_writer block opens (puts are buffered by the batch writer), and the buffered
puts are applied afterwards. -/
def buildUpsertItems (slug ts : String) (t : Table) :
    List ProblemCreate → Except HErr (List Item)
  | [] => .ok []
  | p :: rest =>
    match buildUpsertItem slug ts t p with
    | .error e => .error e
    | .ok it =>
      match buildUpsertItems slug ts t rest with
      | .error e => .error e
      | .ok its => .ok (it :: its)

/-- The body of update_module's delete loop over (table, s3) state: a missing child
document is a silent no-op; otherwise its media blobs are batch-deleted and then the
document is deleted. -/
def deleteOneProblem (slug : String) (st : Table × List String) (pid : String) :
    Table × List String :=
  match get_item st.1 (playbookPk slug) (problemSk pid) with
  | none => st
  | some e =>
    (delete_item st.1 (playbookPk slug) (problemSk pid),
     delete_s3_objects (collect_s3_keys [e]) st.2)

/-- Step 1 of update_module: apply the non-identity module-level field changes when
any are present, else leave the table untouched. -/
def updateModuleMetadata (slug ts : String) (u : ModuleUpdate) (t : Table) : Table :=
  let mf := u.module_fields_dump
  if mf.isEmpty then t
  else
    update_item t (playbookPk slug) "METADATA"
      (build_update_expression (mf ++ [("updatedAt", AttrVal.s ts)]))

/-- routes/playbook.py update_module (PUT /api/playbook/slug). -/
def update_module (slug : String) (u : ModuleUpdate) (ts : String) (t : Table)
    (s3 : List String) : Except HErr RouteResp × Table × List String :=
  match get_item t (playbookPk slug) "METADATA" with
  | none => (.error ⟨404, "Module not found"⟩, t, s3)
  | some _ =>
    let t1 := updateModuleMetadata slug ts u t
    match buildUpsertItems slug ts t1 (u.upsert_problems.getD []) with
    | .error e => (.error e, t1, s3)
    | .ok items =>
      let t2 := putAll t1 items
      let st := (u.delete_problem_ids.getD []).foldl (deleteOneProblem slug) (t2, s3)
      (.ok ⟨slug, "Module updated"⟩, st.1, st.2)

/-- update_module's final batch delete: delete every queried item by the "PK"/"SK"
attributes it carries (a KeyError / non-string key surfaces as a 500). -/
def deleteAllItems (t : Table) : List Item → Except HErr Table
  | [] => .ok t
  | it :: rest =>
    match itemKeyStrings it with
    | none => .error ⟨500, "KeyError: PK/SK"⟩
    | some pq => deleteAllItems (delete_item t pq.1 pq.2) rest

/-- routes/playbook.py delete_module (DELETE /api/playbook/slug). -/
def delete_module (slug : String) (t : Table) (s3 : List String) :
    Except HErr RouteResp × Table × List String :=
  let items := table_query t (playbookPk slug)
  if items.isEmpty then (.error ⟨404, "Module not found"⟩, t, s3)
  else
    let s3A := delete_s3_objects (collect_s3_keys items) s3
    match deleteAllItems t items with
    | .error e => (.error e, t, s3A)
    | .ok tA => (.ok ⟨slug, "Module deleted"⟩, tA, s3A)

/-- The routes registered on routes/blog.py router. -/
def blogRouterRoutes : List (String × String) :=
  [("POST", "/api/blog"), ("PUT", "/api/blog/\x7bslug\x7d"),
   ("DELETE", "/api/blog/\x7bslug\x7d")]

/-- The routes registered on routes/playbook.py router. -/
def playbookRouterRoutes : List (String × String) :=
  [("POST", "/api/playbook"), ("PUT", "/api/playbook/\x7bslug\x7d"),
   ("DELETE", "/api/playbook/\x7bslug\x7d")]

/-- The routes registered on routes/upload.py router. -/
def uploadRouterRoutes : List (String × String) := [("POST", "/api/upload-url")]

/-- The routes registered on routes/leetcode.py router. -/
def leetcodeRouterRoutes : List (String × String) := [("POST", "/api/leetcode/sync")]

/-- admin/handler.py: the FastAPI app includes exactly the blog, playbook and upload
routers plus the /health probe (routes/leetcode.py defines its router but handler.py
never includes it). -/
def appRoutes : List (String × String) :=
  blogRouterRoutes ++ playbookRouterRoutes ++ uploadRouterRoutes ++ [("GET", "/health")]

/-- A two-item playbook partition (module metadata plus one problem child) used to
try the delete cascade on concrete data. -/
def sampleModuleTable : Table :=
  [[("PK", AttrVal.s "PLAYBOOK#m"), ("SK", AttrVal.s "METADATA"),
    ("media", AttrVal.l [AttrVal.m
      [("key", AttrVal.s "a.png"), ("s3Key", AttrVal.s "img/a.png"),
       ("type", AttrVal.s "image")]])],
   [("PK", AttrVal.s "PLAYBOOK#m"), ("SK", AttrVal.s "PROBLEM#1"),
    ("media", AttrVal.l [])]]

/-- A bucket state holding one referenced and one unrelated object key. -/
def sampleBucket : List String := ["img/a.png", "other.png"]

/-! ### Helper lemmas about items and field assignment -/

theorem orElse_none_eval {α : Type} (g : Unit → Option α) : Option.orElse none g = g () :=
  rfl

theorem orElse_some_eval {α : Type} (w : α) (g : Unit → Option α) :
    Option.orElse (some w) g = some w :=
  rfl

theorem getAttr_single (k f : String) (v : AttrVal) :
    getAttr [(k, v)] f = if f = k then some v else none := by
  show (if k = f then some v else none) = _
  by_cases hfk : f = k
  · rw [if_pos hfk.symm, if_pos hfk]
  · rw [if_neg (fun h => hfk h.symm), if_neg hfk]

theorem getAttr_append (a b : List (String × AttrVal)) (f : String) :
    getAttr (a ++ b) f = (getAttr a f).orElse (fun _ => getAttr b f) := by
  induction a with
  | nil => rfl
  | cons hd tl ih =>
    obtain ⟨k, v⟩ := hd
    by_cases h : k = f
    · simp [getAttr, h, Option.orElse]
    · simp [getAttr, h, ih]

theorem getAttr_eq_none_of_not_mem (l : List (String × AttrVal)) (f : String)
    (h : f ∉ l.map Prod.fst) : getAttr l f = none := by
  induction l with
  | nil => rfl
  | cons hd tl ih =>
    obtain ⟨k, v⟩ := hd
    simp only [List.map_cons, List.mem_cons] at h
    push_neg at h
    simp [getAttr, Ne.symm h.1, ih h.2]

theorem getAttr_map_repl_ne (it : Item) (k f : String) (v : AttrVal) (hne : f ≠ k) :
    getAttr (it.map (fun p => if p.1 = k then (k, v) else p)) f = getAttr it f := by
  induction it with
  | nil => rfl
  | cons hd tl ih =>
    obtain ⟨a, b⟩ := hd
    simp only [List.map_cons]
    by_cases hak : a = k
    · subst hak
      simp only [if_pos rfl]
      show (if a = f then some v else _) = if a = f then some b else _
      rw [if_neg (fun h => hne h.symm), if_neg (fun h => hne h.symm)]
      exact ih
    · simp only [if_neg hak]
      show (if a = f then some b else _) = if a = f then some b else _
      by_cases haf : a = f
      · rw [if_pos haf, if_pos haf]
      · rw [if_neg haf, if_neg haf]
        exact ih

theorem getAttr_map_repl_mem (it : Item) (k f : String) (v : AttrVal)
    (hmem : it.any (fun p => decide (p.1 = k)) = true) :
    getAttr (it.map (fun p => if p.1 = k then (k, v) else p)) f =
      if f = k then some v else getAttr it f := by
  induction it with
  | nil => simp at hmem
  | cons hd tl ih =>
    obtain ⟨a, b⟩ := hd
    simp only [List.map_cons]
    by_cases hak : a = k
    · subst hak
      simp only [if_pos rfl]
      by_cases hf : f = a
      · show (if a = f then some v else _) = if f = a then some v else _
        rw [if_pos hf.symm, if_pos hf]
      · show (if a = f then some v else _) = if f = a then some v else _
        rw [if_neg (fun h => hf h.symm), if_neg hf]
        show getAttr (tl.map _) f = getAttr ((a, b) :: tl) f
        rw [getAttr_map_repl_ne tl a f v hf]
        show getAttr tl f = if a = f then some b else getAttr tl f
        rw [if_neg (fun h => hf h.symm)]
    · simp only [if_neg hak]
      simp only [List.any_cons, Bool.or_eq_true, decide_eq_true_eq] at hmem
      rcases hmem with h | h
      · exact absurd h hak
      · by_cases haf : a = f
        · show (if a = f then some b else _) = if f = k then some v else _
          rw [if_pos haf, if_neg (fun hh => hak (haf.trans hh))]
          show some b = getAttr ((a, b) :: tl) f
          show some b = if a = f then some b else getAttr tl f
          rw [if_pos haf]
        · show (if a = f then some b else _) = if f = k then some v else _
          rw [if_neg haf, ih h]
          by_cases hfk : f = k
          · rw [if_pos hfk, if_pos hfk]
          · rw [if_neg hfk, if_neg hfk]
            show getAttr tl f = if a = f then some b else getAttr tl f
            rw [if_neg haf]

theorem getAttr_setField (it : Item) (k f : String) (v : AttrVal) :
    getAttr (setField it k v) f = if f = k then some v else getAttr it f := by
  unfold setField
  by_cases hmem : it.any (fun p => decide (p.1 = k)) = true
  · rw [if_pos hmem]
    exact getAttr_map_repl_mem it k f v hmem
  · rw [if_neg hmem, getAttr_append, getAttr_single]
    by_cases hfk : f = k
    · have hnone : getAttr it f = none := by
        apply getAttr_eq_none_of_not_mem
        intro hc
        apply hmem
        simp only [List.any_eq_true, decide_eq_true_eq]
        obtain ⟨p, hp, hp1⟩ := List.mem_map.mp hc
        exact ⟨p, hp, hfk ▸ hp1⟩
      rw [hnone, orElse_none_eval]
    · cases hit : getAttr it f with
      | some w => rw [orElse_some_eval, if_neg hfk]
      | none => rw [orElse_none_eval, if_neg hfk]

theorem getAttr_setFields (d : List (String × AttrVal)) (it : Item) (f : String) :
    getAttr (setFields it d) f =
      (getAttr d.reverse f).orElse (fun _ => getAttr it f) := by
  induction d generalizing it with
  | nil => rfl
  | cons hd tl ih =>
    obtain ⟨k, v⟩ := hd
    show getAttr (setFields (setField it k v) tl) f = _
    rw [ih (setField it k v), List.reverse_cons, getAttr_append]
    cases htl : getAttr tl.reverse f with
    | some w => rw [orElse_some_eval, orElse_some_eval, orElse_some_eval]
    | none =>
      rw [orElse_none_eval, orElse_none_eval, getAttr_setField, getAttr_single]
      by_cases hfk : f = k
      · rw [if_pos hfk, if_pos hfk, orElse_some_eval]
      · rw [if_neg hfk, if_neg hfk, orElse_none_eval]

theorem getAttr_reverse_of_nodup (d : List (String × AttrVal)) (f : String)
    (h : (d.map Prod.fst).Nodup) : getAttr d.reverse f = getAttr d f := by
  induction d with
  | nil => rfl
  | cons hd tl ih =>
    obtain ⟨k, v⟩ := hd
    simp only [List.map_cons, List.nodup_cons] at h
    rw [List.reverse_cons, getAttr_append, ih h.2]
    by_cases hfk : f = k
    · subst hfk
      have hnone : getAttr tl f = none :=
        getAttr_eq_none_of_not_mem tl f h.1
      rw [hnone, orElse_none_eval, getAttr_single, if_pos rfl]
      show _ = if f = f then some v else getAttr tl f
      rw [if_pos rfl]
    · show _ = if k = f then some v else getAttr tl f
      rw [if_neg (fun hh => hfk hh.symm)]
      cases htl : getAttr tl f with
      | some w => rw [orElse_some_eval]
      | none => rw [orElse_none_eval, getAttr_single, if_neg hfk]

theorem getAttr_setFields_nodup (d : List (String × AttrVal)) (it : Item) (f : String)
    (h : (d.map Prod.fst).Nodup) :
    getAttr (setFields it d) f = (getAttr d f).orElse (fun _ => getAttr it f) := by
  rw [getAttr_setFields, getAttr_reverse_of_nodup d f h]

theorem buildParts_zip (data : List (String × AttrVal)) (i : Nat) :
    (((buildParts i data).2.1).zip ((buildParts i data).2.2)).map
      (fun p => (p.1.2, p.2.2)) = data := by
  induction data generalizing i with
  | nil => rfl
  | cons hd tl ih =>
    obtain ⟨k, v⟩ := hd
    simp only [buildParts, List.zip_cons_cons, List.map_cons, ih (i + 1)]

theorem applyDirective_build (data : List (String × AttrVal)) (it : Item) :
    applyDirective (build_update_expression data) it = setFields it data := by
  unfold applyDirective build_update_expression
  rw [buildParts_zip data 0]

theorem getAttr_applyDirective_of_not_mem (data : List (String × AttrVal)) (it : Item)
    (f : String) (h : f ∉ data.map Prod.fst) :
    getAttr (applyDirective (build_update_expression data) it) f = getAttr it f := by
  rw [applyDirective_build, getAttr_setFields]
  have hrev : getAttr data.reverse f = none := by
    apply getAttr_eq_none_of_not_mem
    rw [List.map_reverse]
    simpa using h
  rw [hrev, orElse_none_eval]

theorem get_item_map_cond (t : Table) (pk sk : String) (old : Item) (g : Item → Item)
    (hg : ∀ it, itemPK (g it) = itemPK it ∧ itemSK (g it) = itemSK it)
    (hold : get_item t pk sk = some old) :
    get_item
      (t.map (fun it =>
        if itemPK it = some pk ∧ itemSK it = some sk then g it else it)) pk sk =
      some (g old) := by
  induction t with
  | nil => simp [get_item] at hold
  | cons it0 rest ih =>
    by_cases hc : itemPK it0 = some pk ∧ itemSK it0 = some sk
    · have : it0 = old := by
        have := hold
        unfold get_item at this
        rw [if_pos hc] at this
        exact Option.some.inj this
      subst this
      simp only [List.map_cons, if_pos hc]
      show get_item (g it0 :: _) pk sk = _
      unfold get_item
      rw [if_pos ⟨(hg it0).1.trans hc.1, (hg it0).2.trans hc.2⟩]
    · have hrest : get_item rest pk sk = some old := by
        have := hold
        unfold get_item at this
        rwa [if_neg hc] at this
      simp only [List.map_cons, if_neg hc]
      show get_item (it0 :: _) pk sk = _
      unfold get_item
      rw [if_neg hc]
      exact ih hrest

theorem get_item_update_item (t : Table) (pk sk : String) (old : Item)
    (data : List (String × AttrVal))
    (hold : get_item t pk sk = some old)
    (hpk : "PK" ∉ data.map Prod.fst) (hsk : "SK" ∉ data.map Prod.fst) :
    get_item (update_item t pk sk (build_update_expression data)) pk sk =
      some (setFields old data) := by
  unfold update_item
  rw [if_pos (by rw [hold]; rfl)]
  have hg : ∀ it, itemPK (applyDirective (build_update_expression data) it) = itemPK it ∧
      itemSK (applyDirective (build_update_expression data) it) = itemSK it := by
    intro it
    constructor
    · unfold itemPK
      rw [getAttr_applyDirective_of_not_mem data it "PK" hpk]
    · unfold itemSK
      rw [getAttr_applyDirective_of_not_mem data it "SK" hsk]
  rw [get_item_map_cond t pk sk old _ hg hold, applyDirective_build]

theorem optField_keys_sublist (n : String) (o : Option AttrVal) :
    List.Sublist ((optField n o).map Prod.fst) [n] := by
  cases o <;> simp [optField]

theorem post_dump_keys_sublist (u : PostUpdate) :
    List.Sublist ((PostUpdate.model_dump u).map Prod.fst)
      ["title", "date", "excerpt", "tags", "content", "media"] := by
  unfold PostUpdate.model_dump
  simp only [List.map_append]
  exact
    ((((((optField_keys_sublist "title" _).append
      (optField_keys_sublist "date" _)).append
        (optField_keys_sublist "excerpt" _)).append
          (optField_keys_sublist "tags" _)).append
            (optField_keys_sublist "content" _)).append
              (optField_keys_sublist "media" _))

theorem post_data_keys_sublist (u : PostUpdate) (ts : String) :
    List.Sublist
      ((PostUpdate.model_dump u ++ [("updatedAt", AttrVal.s ts)]).map Prod.fst)
      ["title", "date", "excerpt", "tags", "content", "media", "updatedAt"] := by
  rw [List.map_append]
  exact (post_dump_keys_sublist u).append (List.Sublist.refl _)

theorem post_data_keys_nodup (u : PostUpdate) (ts : String) :
    ((PostUpdate.model_dump u ++ [("updatedAt", AttrVal.s ts)]).map Prod.fst).Nodup :=
  List.Nodup.sublist (post_data_keys_sublist u ts) (by decide)

theorem post_data_no_pk (u : PostUpdate) (ts : String) :
    "PK" ∉ (PostUpdate.model_dump u ++ [("updatedAt", AttrVal.s ts)]).map Prod.fst := by
  intro h
  have := (post_data_keys_sublist u ts).subset h
  simp at this

theorem post_data_no_sk (u : PostUpdate) (ts : String) :
    "SK" ∉ (PostUpdate.model_dump u ++ [("updatedAt", AttrVal.s ts)]).map Prod.fst := by
  intro h
  have := (post_data_keys_sublist u ts).subset h
  simp at this

/-! ### Helper lemmas about tables, queries and deletions -/

theorem mem_delete_item (t : Table) (pk sk : String) (x : Item) :
    x ∈ delete_item t pk sk ↔
      x ∈ t ∧ ¬(itemPK x = some pk ∧ itemSK x = some sk) := by
  unfold delete_item
  rw [List.mem_filter]
  simp only [decide_eq_true_eq]

theorem mem_table_query (t : Table) (pk : String) (x : Item) :
    x ∈ table_query t pk ↔ x ∈ t ∧ itemPK x = some pk := by
  unfold table_query
  rw [List.mem_filter]
  simp

theorem mem_delete_s3 (keys s3 : List String) (k : String) :
    k ∈ delete_s3_objects keys s3 ↔ k ∈ s3 ∧ k ∉ keys := by
  unfold delete_s3_objects
  by_cases h : keys.isEmpty
  · rw [if_pos h, List.isEmpty_iff.mp h]
    simp
  · rw [if_neg h, List.mem_filter]
    simp

theorem itemKeyStrings_spec (it : Item) (p q : String)
    (h : itemKeyStrings it = some (p, q)) : itemPK it = some p ∧ itemSK it = some q := by
  unfold itemKeyStrings at h
  cases hp : itemPK it with
  | none => rw [hp] at h; simp at h
  | some a =>
    cases hq2 : itemSK it with
    | none => rw [hp, hq2] at h; simp at h
    | some b =>
      rw [hp, hq2] at h
      simp only [Option.some.injEq, Prod.mk.injEq] at h
      obtain ⟨h1, h2⟩ := h
      subst h1
      subst h2
      exact ⟨rfl, rfl⟩

theorem deleteAllItems_ok (items : List Item) (t : Table)
    (h : ∀ it ∈ items, (itemKeyStrings it).isSome = true) :
    ∃ tA, deleteAllItems t items = .ok tA ∧
      ∀ x, x ∈ tA ↔ (x ∈ t ∧ ∀ it ∈ items, ∀ p q,
        itemKeyStrings it = some (p, q) →
          ¬(itemPK x = some p ∧ itemSK x = some q)) := by
  induction items generalizing t with
  | nil =>
    refine ⟨t, rfl, fun x => ?_⟩
    simp
  | cons it0 rest ih =>
    obtain ⟨pq, hpq⟩ := Option.isSome_iff_exists.mp (h it0 (List.mem_cons_self it0 rest))
    obtain ⟨tA, hA, hmem⟩ :=
      ih (delete_item t pq.1 pq.2) (fun it hit => h it (List.mem_cons_of_mem _ hit))
    refine ⟨tA, ?_, fun x => ?_⟩
    · show deleteAllItems t (it0 :: rest) = .ok tA
      unfold deleteAllItems
      rw [hpq]
      exact hA
    · rw [hmem x, mem_delete_item]
      constructor
      · rintro ⟨⟨hxt, hnk⟩, hrest⟩
        refine ⟨hxt, fun it hit p q hits => ?_⟩
        rcases List.mem_cons.mp hit with rfl | hm
        · rw [hpq] at hits
          have hpqeq : pq = (p, q) := Option.some.inj hits
          subst hpqeq
          exact hnk
        · exact hrest it hm p q hits
      · rintro ⟨hxt, hall⟩
        refine ⟨⟨hxt, ?_⟩, fun it hit p q hits =>
          hall it (List.mem_cons_of_mem _ hit) p q hits⟩
        exact hall it0 (List.mem_cons_self it0 rest) pq.1 pq.2 (by rw [hpq])

theorem get_item_map_cond_ne (t : Table) (pk sk pk2 sk2 : String) (g : Item → Item)
    (hg : ∀ it, itemPK (g it) = itemPK it ∧ itemSK (g it) = itemSK it)
    (hkne : ¬(pk2 = pk ∧ sk2 = sk)) :
    get_item
      (t.map (fun it =>
        if itemPK it = some pk ∧ itemSK it = some sk then g it else it)) pk2 sk2 =
      get_item t pk2 sk2 := by
  induction t with
  | nil => rfl
  | cons it0 rest ih =>
    simp only [List.map_cons]
    by_cases hc : itemPK it0 = some pk ∧ itemSK it0 = some sk
    · rw [if_pos hc]
      show get_item (g it0 :: _) pk2 sk2 = get_item (it0 :: rest) pk2 sk2
      unfold get_item
      by_cases hc2 : itemPK it0 = some pk2 ∧ itemSK it0 = some sk2
      · exfalso
        apply hkne
        exact ⟨Option.some.inj (hc2.1.symm.trans hc.1),
               Option.some.inj (hc2.2.symm.trans hc.2)⟩
      · rw [if_neg (fun hh => hc2 ⟨(hg it0).1 ▸ hh.1, (hg it0).2 ▸ hh.2⟩), if_neg hc2]
        exact ih
    · rw [if_neg hc]
      show get_item (it0 :: _) pk2 sk2 = get_item (it0 :: rest) pk2 sk2
      unfold get_item
      by_cases hc2 : itemPK it0 = some pk2 ∧ itemSK it0 = some sk2
      · rw [if_pos hc2, if_pos hc2]
      · rw [if_neg hc2, if_neg hc2]
        exact ih

theorem problemSk_ne_metadata (pid : String) : problemSk pid ≠ "METADATA" := by
  intro h
  have h2 : (problemSk pid).data.head? = some 'M' := by rw [h]; decide
  unfold problemSk at h2
  rw [String.data_append "PROBLEM#" pid] at h2
  rw [show "PROBLEM#".data = 'P' :: "ROBLEM#".data from by decide] at h2
  rw [List.cons_append, List.head?_cons] at h2
  exact absurd (Option.some.inj h2) (by decide)

theorem module_dump_keys_sublist (u : ModuleUpdate) :
    List.Sublist ((u.module_fields_dump).map Prod.fst)
      ["title", "description", "content", "order", "media"] := by
  unfold ModuleUpdate.module_fields_dump
  simp only [List.map_append]
  exact
    (((((optField_keys_sublist "title" _).append
      (optField_keys_sublist "description" _)).append
        (optField_keys_sublist "content" _)).append
          (optField_keys_sublist "order" _)).append
            (optField_keys_sublist "media" _))

theorem module_data_keys_sublist (u : ModuleUpdate) (ts : String) :
    List.Sublist
      ((u.module_fields_dump ++ [("updatedAt", AttrVal.s ts)]).map Prod.fst)
      ["title", "description", "content", "order", "media", "updatedAt"] := by
  rw [List.map_append]
  exact (module_dump_keys_sublist u).append (List.Sublist.refl _)

theorem module_data_no_pk (u : ModuleUpdate) (ts : String) :
    "PK" ∉ (u.module_fields_dump ++ [("updatedAt", AttrVal.s ts)]).map Prod.fst := by
  intro h
  have := (module_data_keys_sublist u ts).subset h
  simp at this

theorem module_data_no_sk (u : ModuleUpdate) (ts : String) :
    "SK" ∉ (u.module_fields_dump ++ [("updatedAt", AttrVal.s ts)]).map Prod.fst := by
  intro h
  have := (module_data_keys_sublist u ts).subset h
  simp at this

theorem get_item_cons (x : Item) (t : Table) (pk sk : String) :
    get_item (x :: t) pk sk =
      if itemPK x = some pk ∧ itemSK x = some sk then some x else get_item t pk sk :=
  rfl

theorem get_item_update_item_ne (t : Table) (pk sk sk2 : String)
    (data : List (String × AttrVal)) (hne : sk2 ≠ sk)
    (hpk : "PK" ∉ data.map Prod.fst) (hsk : "SK" ∉ data.map Prod.fst) :
    get_item (update_item t pk sk (build_update_expression data)) pk sk2 =
      get_item t pk sk2 := by
  have hg : ∀ it, itemPK (applyDirective (build_update_expression data) it) = itemPK it ∧
      itemSK (applyDirective (build_update_expression data) it) = itemSK it := by
    intro it
    exact ⟨by unfold itemPK; rw [getAttr_applyDirective_of_not_mem data it "PK" hpk],
           by unfold itemSK; rw [getAttr_applyDirective_of_not_mem data it "SK" hsk]⟩
  unfold update_item
  by_cases hex : (get_item t pk sk).isSome
  · rw [if_pos hex]
    exact get_item_map_cond_ne t pk sk pk sk2 _ hg (fun hh => hne hh.2)
  · rw [if_neg hex]
    have hbase : itemSK (applyDirective (build_update_expression data)
        [("PK", AttrVal.s pk), ("SK", AttrVal.s sk)]) = some sk := by
      rw [(hg _).2]
      unfold itemSK
      simp [getAttr, asStr]
    rw [get_item_cons, hbase, if_neg (fun hh => hne (Option.some.inj hh.2).symm)]

theorem get_item_problem_updateModuleMetadata (slug ts : String) (u : ModuleUpdate)
    (t : Table) (pid : String) :
    get_item (updateModuleMetadata slug ts u t) (playbookPk slug) (problemSk pid) =
      get_item t (playbookPk slug) (problemSk pid) := by
  unfold updateModuleMetadata
  by_cases h1 : (u.module_fields_dump).isEmpty
  · rw [if_pos h1]
  · rw [if_neg h1]
    exact get_item_update_item_ne t (playbookPk slug) "METADATA" (problemSk pid) _
      (problemSk_ne_metadata pid) (module_data_no_pk u ts) (module_data_no_sk u ts)

theorem buildUpsertItem_eq_exist (slug ts : String) (t : Table) (p : ProblemCreate)
    (e : Item) (c : AttrVal)
    (hg : get_item t (playbookPk slug) (problemSk p.id) = some e)
    (hc : getAttr e "createdAt" = some c) :
    buildUpsertItem slug ts t p =
      .ok (setField (problem_item slug p c) "updatedAt" (AttrVal.s ts)) := by
  simp only [buildUpsertItem, hg, hc]

theorem buildUpsertItem_eq_fresh (slug ts : String) (t : Table) (p : ProblemCreate)
    (hg : get_item t (playbookPk slug) (problemSk p.id) = none) :
    buildUpsertItem slug ts t p =
      .ok (setField (problem_item slug p (AttrVal.s ts)) "updatedAt" (AttrVal.s ts)) := by
  simp only [buildUpsertItem, hg]

theorem buildUpsertItem_eq_keyerr (slug ts : String) (t : Table) (p : ProblemCreate)
    (e : Item)
    (hg : get_item t (playbookPk slug) (problemSk p.id) = some e)
    (hc : getAttr e "createdAt" = none) :
    buildUpsertItem slug ts t p = .error ⟨500, "KeyError: createdAt"⟩ := by
  simp only [buildUpsertItem, hg, hc]

theorem buildUpsertItems_ok (slug ts : String) (t : Table) (prs : List ProblemCreate)
    (h : ∀ p ∈ prs, ∀ e, get_item t (playbookPk slug) (problemSk p.id) = some e →
      (getAttr e "createdAt").isSome = true) :
    ∃ its, buildUpsertItems slug ts t prs = .ok its := by
  induction prs with
  | nil => exact ⟨[], rfl⟩
  | cons p rest ih =>
    have hp : ∃ it, buildUpsertItem slug ts t p = .ok it := by
      cases hg : get_item t (playbookPk slug) (problemSk p.id) with
      | none => exact ⟨_, buildUpsertItem_eq_fresh slug ts t p hg⟩
      | some e =>
        obtain ⟨c, hc⟩ :=
          Option.isSome_iff_exists.mp (h p (List.mem_cons_self p rest) e hg)
        exact ⟨_, buildUpsertItem_eq_exist slug ts t p e c hg hc⟩
    obtain ⟨it, hit⟩ := hp
    obtain ⟨its, hits⟩ := ih (fun p2 h2 => h p2 (List.mem_cons_of_mem _ h2))
    refine ⟨it :: its, ?_⟩
    show buildUpsertItems slug ts t (p :: rest) = .ok (it :: its)
    unfold buildUpsertItems
    rw [hit, hits]

theorem problem_item_createdAt (slug : String) (p : ProblemCreate) (ts : AttrVal) :
    getAttr (problem_item slug p ts) "createdAt" = some ts := by
  unfold problem_item
  simp [getAttr]

theorem problem_item_updatedAt (slug : String) (p : ProblemCreate) (ts : AttrVal) :
    getAttr (problem_item slug p ts) "updatedAt" = some ts := by
  unfold problem_item
  simp [getAttr]

theorem upsertItem_attrs (slug ts : String) (p : ProblemCreate) (c : AttrVal) :
    getAttr (setField (problem_item slug p c) "updatedAt" (AttrVal.s ts)) "createdAt" =
        some c ∧
      getAttr (setField (problem_item slug p c) "updatedAt" (AttrVal.s ts)) "updatedAt" =
        some (AttrVal.s ts) := by
  constructor
  · rw [getAttr_setField, if_neg (by decide), problem_item_createdAt]
  · rw [getAttr_setField, if_pos rfl]

/-! ### Claim theorems -/

/-- C2: the spec claims the HTTP surface exposes POST /api/leetcode/sync behind the
admin credential check. The route exists on the leetcode router, but
admin/handler.py includes only the blog, playbook and upload routers, so the
application's HTTP surface does not contain the path at all: every request to it
gets the framework's 404, never the documented sync behaviour. -/
theorem C2_sync_route_unmounted :
    ("POST", "/api/leetcode/sync") ∈ leetcodeRouterRoutes ∧
      ("POST", "/api/leetcode/sync") ∉ appRoutes := by
  decide

/-- C3: a create request (blog post or playbook module) whose slug already has a
stored document fails with Conflict (409) and leaves the table - in particular the
stored document for that slug - unchanged. -/
theorem C3_duplicate_create_conflict (tB tP : Table) (post : PostCreate)
    (module : ModuleCreate) (ts ts2 : String)
    (hB : (get_item tB (blogPk post.slug) "METADATA").isSome = true)
    (hP : (get_item tP (playbookPk module.slug) "METADATA").isSome = true) :
    errStatus (create_post post ts tB).1 = some 409 ∧ (create_post post ts tB).2 = tB ∧
      errStatus (create_module module ts2 tP).1 = some 409 ∧
      (create_module module ts2 tP).2 = tP := by
  obtain ⟨eB, heB⟩ := Option.isSome_iff_exists.mp hB
  obtain ⟨eP, heP⟩ := Option.isSome_iff_exists.mp hP
  refine ⟨?_, ?_, ?_, ?_⟩ <;> simp only [create_post, create_module, heB, heP] <;> rfl

/-- C3 witness: a table already holding BLOG#hello / PLAYBOOK#two-pointers metadata
rejects re-creation with 409 and is left unchanged. -/
theorem C3_duplicate_create_conflict_spot :
    errStatus (create_post
        ⟨"hello", "T", "2026-01-01", "E", [], "C", []⟩ "ts"
        [[("PK", AttrVal.s "BLOG#hello"), ("SK", AttrVal.s "METADATA")]]).1 =
      some 409 ∧
    (create_post ⟨"hello", "T", "2026-01-01", "E", [], "C", []⟩ "ts"
        [[("PK", AttrVal.s "BLOG#hello"), ("SK", AttrVal.s "METADATA")]]).2 =
      [[("PK", AttrVal.s "BLOG#hello"), ("SK", AttrVal.s "METADATA")]] ∧
    errStatus (create_module
        ⟨"two-pointers", "T", "D", "C", 1, [], []⟩ "ts"
        [[("PK", AttrVal.s "PLAYBOOK#two-pointers"), ("SK", AttrVal.s "METADATA")]]).1 =
      some 409 ∧
    (create_module ⟨"two-pointers", "T", "D", "C", 1, [], []⟩ "ts"
        [[("PK", AttrVal.s "PLAYBOOK#two-pointers"), ("SK", AttrVal.s "METADATA")]]).2 =
      [[("PK", AttrVal.s "PLAYBOOK#two-pointers"), ("SK", AttrVal.s "METADATA")]] := by
  exact C3_duplicate_create_conflict _ _ _ _ "ts" "ts" (by decide) (by decide)

/-- C4: in a module update's problem upsert, when a child document with the same
module slug and problem id exists its createdAt is carried over unchanged and
updatedAt is set to the fresh timestamp; when none exists both stamps equal the
fresh timestamp. (An existing child without a createdAt attribute would raise a
KeyError, surfacing as a 500.) -/
theorem C4_upsert_preserves_createdAt (slug ts : String) (t : Table)
    (p : ProblemCreate) :
    match get_item t (playbookPk slug) (problemSk p.id) with
    | some e =>
      match getAttr e "createdAt" with
      | some c =>
        (buildUpsertItem slug ts t p).map
            (fun it => (getAttr it "createdAt", getAttr it "updatedAt")) =
          .ok (some c, some (AttrVal.s ts))
      | none => buildUpsertItem slug ts t p = .error ⟨500, "KeyError: createdAt"⟩
    | none =>
      (buildUpsertItem slug ts t p).map
          (fun it => (getAttr it "createdAt", getAttr it "updatedAt")) =
        .ok (some (AttrVal.s ts), some (AttrVal.s ts)) := by
  cases hg : get_item t (playbookPk slug) (problemSk p.id) with
  | none =>
    rw [buildUpsertItem_eq_fresh slug ts t p hg]
    simp only [Except.map]
    rw [(upsertItem_attrs slug ts p (AttrVal.s ts)).1,
        (upsertItem_attrs slug ts p (AttrVal.s ts)).2]
  | some e =>
    show (match getAttr e "createdAt" with
      | some c =>
        (buildUpsertItem slug ts t p).map
            (fun it => (getAttr it "createdAt", getAttr it "updatedAt")) =
          Except.ok (some c, some (AttrVal.s ts))
      | none =>
        buildUpsertItem slug ts t p = Except.error ⟨500, "KeyError: createdAt"⟩)
    cases hc : getAttr e "createdAt" with
    | none => exact buildUpsertItem_eq_keyerr slug ts t p e hg hc
    | some c =>
      rw [buildUpsertItem_eq_exist slug ts t p e c hg hc]
      simp only [Except.map]
      rw [(upsertItem_attrs slug ts p c).1, (upsertItem_attrs slug ts p c).2]

/-- C1: on the static-key path (bearer credential starting with "btf_") the verifier
has exactly three outcomes: Misconfigured (500) when the service key is not
configured, the synthetic identity "mcp-server" when the credential equals the
configured key, and Unauthenticated (401) otherwise. (MCP_API_KEY is modelled from
the spec, being absent from src/src/shared/config.py.) -/
theorem C1_static_key_auth (mcp secret admin token : String) (dec : String → JwtResult)
    (h : strStartsWith token "btf_" = true) :
    if mcp = "" then
      verify_admin_token mcp secret admin dec token =
        .error ⟨500, "MCP_API_KEY not configured"⟩
    else if token = mcp then
      verify_admin_token mcp secret admin dec token = .ok "mcp-server"
    else
      verify_admin_token mcp secret admin dec token = .error ⟨401, "Invalid API key"⟩ := by
  unfold verify_admin_token
  rw [h, if_pos rfl]
  split_ifs <;> rfl

/-- C1 witness: a request bearing the configured key "btf_key1" is accepted with the
synthetic identity; tried concretely via the theorem. -/
theorem C1_static_key_auth_spot :
    verify_admin_token "btf_key1" "sec" "admin@x.io"
        (fun _ => JwtResult.invalid) "btf_key1" = .ok "mcp-server" := by
  have h := C1_static_key_auth "btf_key1" "sec" "admin@x.io" "btf_key1"
    (fun _ => JwtResult.invalid) (by decide)
  rw [if_neg (by decide), if_pos rfl] at h
  exact h

/-- C9 counterexample: with the admin email configured as the empty string and a
valid token whose email claim is the empty string, the email claim is present and
case-insensitively equals the configured admin email, yet the verifier answers
Forbidden instead of returning the email: the code's falsiness test treats the
empty-string claim like an absent one. -/
theorem C9_blank_email_cex :
    verify_admin_token "" "secret" "" (fun _ => JwtResult.valid (some "")) "token" =
        .error ⟨403, "Not authorized"⟩ ∧
      verify_admin_token "" "secret" "" (fun _ => JwtResult.valid (some "")) "token" ≠
        .ok "" ∧
      strToLower "" = strToLower "" := by
  refine ⟨rfl, ?_, rfl⟩
  intro hc
  exact Except.noConfusion hc

/-- C9 (amended): for every credential that decodes as a valid, unexpired signed
token, the verifier fails Forbidden (403) when the email claim is absent or empty,
or does not case-insensitively equal the configured admin email, and otherwise
returns that email as the verified identity. -/
theorem C9_email_check_amended (mcp secret admin token : String)
    (dec : String → JwtResult) (em : Option String)
    (hb : strStartsWith token "btf_" = false)
    (hs : secret ≠ "")
    (hd : dec token = .valid em) :
    match em with
    | none =>
      verify_admin_token mcp secret admin dec token = .error ⟨403, "Not authorized"⟩
    | some email =>
      if email = "" then
        verify_admin_token mcp secret admin dec token = .error ⟨403, "Not authorized"⟩
      else if strToLower email = strToLower admin then
        verify_admin_token mcp secret admin dec token = .ok email
      else
        verify_admin_token mcp secret admin dec token = .error ⟨403, "Not authorized"⟩ := by
  cases em with
  | none => simp [verify_admin_token, hb, hd, hs]
  | some email =>
    show (if email = "" then
        verify_admin_token mcp secret admin dec token =
          Except.error ⟨403, "Not authorized"⟩
      else if strToLower email = strToLower admin then
        verify_admin_token mcp secret admin dec token = Except.ok email
      else
        verify_admin_token mcp secret admin dec token =
          Except.error ⟨403, "Not authorized"⟩)
    split_ifs with h1 h2
    · simp [verify_admin_token, hb, hd, hs, h1]
    · simp [verify_admin_token, hb, hd, hs, h1, h2]
    · simp [verify_admin_token, hb, hd, hs, h1, h2]

/-- C9 witness: a valid token for "Admin@X.io" with ADMIN_EMAIL "admin@x.io" is
accepted and the claim email is returned; tried concretely via the theorem. -/
theorem C9_email_check_amended_spot :
    verify_admin_token "" "sec" "admin@x.io"
        (fun _ => JwtResult.valid (some "Admin@X.io")) "token" = .ok "Admin@X.io" := by
  have h := C9_email_check_amended "" "sec" "admin@x.io" "token"
    (fun _ => JwtResult.valid (some "Admin@X.io")) (some "Admin@X.io")
    (by decide) (by decide) rfl
  have h2 : (if ("Admin@X.io" : String) = "" then
      verify_admin_token "" "sec" "admin@x.io"
        (fun _ => JwtResult.valid (some "Admin@X.io")) "token" =
        .error ⟨403, "Not authorized"⟩
    else if strToLower "Admin@X.io" = strToLower "admin@x.io" then
      verify_admin_token "" "sec" "admin@x.io"
        (fun _ => JwtResult.valid (some "Admin@X.io")) "token" = .ok "Admin@X.io"
    else
      verify_admin_token "" "sec" "admin@x.io"
        (fun _ => JwtResult.valid (some "Admin@X.io")) "token" =
        .error ⟨403, "Not authorized"⟩) := h
  rw [if_neg (by decide), if_pos (by decide)] at h2
  exact h2

/-- C8: upload-URL key construction and validation. entity_type "blog" yields
s3Key images/blog/slug/filename (any problem id), "playbook" with a (nonempty)
problem id yields images/playbook/slug/problems/id/filename and without one
images/playbook/slug/filename; an entity_type outside the allowed pair or a
content_type outside the fixed image allow-list fails BadRequest (400) with no
presign call issued. -/
theorem C8_upload_url (f ct ctBad ct2 s p et : String) (pOpt : Option String)
    (hct : ct ∈ allowedContentTypes)
    (hctBad : ctBad ∉ allowedContentTypes)
    (hp : p ≠ "")
    (het : et ∉ allowedEntityTypes) :
    (get_upload_url ⟨f, ct, "blog", s, pOpt⟩).1 =
        .ok ⟨"images/blog/" ++ s ++ "/" ++ f, f⟩ ∧
      (get_upload_url ⟨f, ct, "playbook", s, some p⟩).1 =
        .ok ⟨"images/playbook/" ++ s ++ "/problems/" ++ p ++ "/" ++ f, f⟩ ∧
      (get_upload_url ⟨f, ct, "playbook", s, none⟩).1 =
        .ok ⟨"images/playbook/" ++ s ++ "/" ++ f, f⟩ ∧
      (errStatus (get_upload_url ⟨f, ctBad, "blog", s, pOpt⟩).1 = some 400 ∧
        (get_upload_url ⟨f, ctBad, "blog", s, pOpt⟩).2 = []) ∧
      (errStatus (get_upload_url ⟨f, ctBad, "playbook", s, pOpt⟩).1 = some 400 ∧
        (get_upload_url ⟨f, ctBad, "playbook", s, pOpt⟩).2 = []) ∧
      (errStatus (get_upload_url ⟨f, ct2, et, s, pOpt⟩).1 = some 400 ∧
        (get_upload_url ⟨f, ct2, et, s, pOpt⟩).2 = []) := by
  refine ⟨?_, ?_, ?_, ⟨?_, ?_⟩, ⟨?_, ?_⟩, ⟨?_, ?_⟩⟩
  · cases pOpt with
    | none => simp [get_upload_url, build_s3_key, hct, allowedEntityTypes]
    | some q => simp [get_upload_url, build_s3_key, hct, allowedEntityTypes]
  · simp [get_upload_url, build_s3_key, hct, hp, allowedEntityTypes]
  · simp [get_upload_url, build_s3_key, hct, allowedEntityTypes]
  · simp [get_upload_url, hctBad, errStatus, allowedEntityTypes]
  · simp [get_upload_url, hctBad, errStatus, allowedEntityTypes]
  · simp [get_upload_url, hctBad, errStatus, allowedEntityTypes]
  · simp [get_upload_url, hctBad, errStatus, allowedEntityTypes]
  · simp [get_upload_url, het, errStatus]
  · simp [get_upload_url, het, errStatus]

/-- C8 witness: the spec's concrete upload-URL examples, tried via the theorem. -/
theorem C8_upload_url_spot :
    (get_upload_url ⟨"cover.jpg", "image/jpeg", "blog", "my-post", none⟩).1 =
        .ok ⟨"images/blog/my-post/cover.jpg", "cover.jpg"⟩ ∧
      (get_upload_url
          ⟨"cover.jpg", "image/jpeg", "playbook", "my-post", some "two-sum-ii"⟩).1 =
        .ok ⟨"images/playbook/my-post/problems/two-sum-ii/cover.jpg", "cover.jpg"⟩ ∧
      errStatus (get_upload_url
          ⟨"cover.jpg", "application/pdf", "blog", "my-post", none⟩).1 = some 400 ∧
      errStatus (get_upload_url
          ⟨"cover.jpg", "image/jpeg", "unknown", "my-post", none⟩).1 = some 400 := by
  have h := C8_upload_url "cover.jpg" "image/jpeg" "application/pdf" "image/jpeg"
    "my-post" "two-sum-ii" "unknown" none
    (by decide) (by decide) (by decide) (by decide)
  exact ⟨h.1, h.2.1, h.2.2.2.1.1, h.2.2.2.2.2.1⟩

/-- C10: a playbook upload-URL request whose problem_id is the empty string gets the
module-level key images/playbook/slug/filename, exactly as if the problem id were
absent - the truthiness test never produces a problems/ segment for it. -/
theorem C10_empty_problem_id (f ct s : String) :
    build_s3_key "playbook" s f (some "") = build_s3_key "playbook" s f none ∧
      build_s3_key "playbook" s f (some "") =
        .ok ("images/playbook/" ++ s ++ "/" ++ f) ∧
      get_upload_url ⟨f, ct, "playbook", s, some ""⟩ =
        get_upload_url ⟨f, ct, "playbook", s, none⟩ := by
  refine ⟨?_, ?_, ?_⟩
  · simp [build_s3_key]
  · simp [build_s3_key]
  · simp [get_upload_url, build_s3_key, allowedEntityTypes]

/-- C5: blog post update. With no stored document for the slug it fails NotFound
(404) leaving the table unchanged; with a stored document and an empty field map
(after dropping unset fields) it fails BadRequest (400) leaving the table unchanged;
otherwise it succeeds with {slug, "Post updated"} and the stored document afterwards
carries exactly the supplied fields plus the fresh updatedAt, all other attributes
unchanged. -/
theorem C5_update_post_contract (slug ts : String) (u : PostUpdate) (t : Table) :
    match get_item t (blogPk slug) "METADATA" with
    | none => update_post slug u ts t = (.error ⟨404, "Post not found"⟩, t)
    | some old =>
      match u.model_dump with
      | [] => update_post slug u ts t = (.error ⟨400, "No fields to update"⟩, t)
      | _ :: _ =>
        (update_post slug u ts t).1 = .ok ⟨slug, "Post updated"⟩ ∧
        ∀ fld : String,
          (get_item (update_post slug u ts t).2 (blogPk slug) "METADATA").bind
              (fun it => getAttr it fld) =
            (getAttr (u.model_dump ++ [("updatedAt", AttrVal.s ts)]) fld).orElse
              (fun _ => getAttr old fld) := by
  cases hget : get_item t (blogPk slug) "METADATA" with
  | none => simp [update_post, hget]
  | some old =>
    cases hdump : u.model_dump with
    | nil => simp [update_post, hget, hdump]
    | cons a l =>
      have hne : (u.model_dump).isEmpty = false := by rw [hdump]; rfl
      constructor
      · simp [update_post, hget, hne]
      · intro fld
        have hupd : (update_post slug u ts t).2 =
            update_item t (blogPk slug) "METADATA"
              (build_update_expression
                (u.model_dump ++ [("updatedAt", AttrVal.s ts)])) := by
          simp [update_post, hget, hne]
        rw [hupd]
        rw [get_item_update_item t (blogPk slug) "METADATA" old _ hget
          (post_data_no_pk u ts) (post_data_no_sk u ts)]
        show getAttr (setFields old (u.model_dump ++ [("updatedAt", AttrVal.s ts)]))
            fld = _
        rw [getAttr_setFields_nodup _ old fld (post_data_keys_nodup u ts), hdump]

theorem get_item_delete_item_self (t : Table) (pk sk : String) :
    get_item (delete_item t pk sk) pk sk = none := by
  induction t with
  | nil => rfl
  | cons x rest ih =>
    unfold delete_item at ih ⊢
    show get_item (List.filter _ (x :: rest)) pk sk = none
    rw [List.filter_cons]
    by_cases hc : itemPK x = some pk ∧ itemSK x = some sk
    · rw [if_neg (fun hd => (of_decide_eq_true hd) hc)]
      exact ih
    · rw [if_pos (decide_eq_true hc)]
      rw [get_item_cons, if_neg hc]
      exact ih

/-- C6: module delete. It fails NotFound (404) exactly when the partition query for
the module slug returns no documents and then leaves everything unchanged; otherwise
it succeeds with {slug, "Module deleted"}, a subsequent partition query returns no
documents, and a blob key remains in the bucket iff it was there before and is not
an s3Key found in the media lists of the returned documents. (The hypothesis is the
store's schema guarantee that every stored item carries string PK/SK keys.) -/
theorem C6_delete_module_cascade (slug : String) (t : Table) (s3 : List String)
    (hschema : ∀ it ∈ table_query t (playbookPk slug),
      (itemKeyStrings it).isSome = true) :
    match table_query t (playbookPk slug) with
    | [] => delete_module slug t s3 = (.error ⟨404, "Module not found"⟩, t, s3)
    | _ :: _ =>
      (delete_module slug t s3).1 = .ok ⟨slug, "Module deleted"⟩ ∧
      table_query (delete_module slug t s3).2.1 (playbookPk slug) = [] ∧
      ∀ k : String, k ∈ (delete_module slug t s3).2.2 ↔
        (k ∈ s3 ∧ k ∉ collect_s3_keys (table_query t (playbookPk slug))) := by
  cases hq : table_query t (playbookPk slug) with
  | nil => simp [delete_module, hq]
  | cons i0 irest =>
    have hne : (table_query t (playbookPk slug)).isEmpty = false := by rw [hq]; rfl
    obtain ⟨tA, hA, hmem⟩ :=
      deleteAllItems_ok (table_query t (playbookPk slug)) t hschema
    have hval : delete_module slug t s3 =
        (.ok ⟨slug, "Module deleted"⟩, tA,
         delete_s3_objects (collect_s3_keys (table_query t (playbookPk slug))) s3) := by
      simp [delete_module, hne, hA]
    refine ⟨by rw [hval], ?_, ?_⟩
    · rw [hval]
      apply List.filter_eq_nil_iff.mpr
      intro x hx hdec
      have hpk : itemPK x = some (playbookPk slug) := of_decide_eq_true hdec
      obtain ⟨hxt, hall⟩ := (hmem x).mp hx
      have hxq : x ∈ table_query t (playbookPk slug) :=
        (mem_table_query t (playbookPk slug) x).mpr ⟨hxt, hpk⟩
      obtain ⟨pqx, hpqx⟩ := Option.isSome_iff_exists.mp (hschema x hxq)
      have hspec := itemKeyStrings_spec x pqx.1 pqx.2 (by rw [hpqx])
      exact hall x hxq pqx.1 pqx.2 (by rw [hpqx]) ⟨hspec.1, hspec.2⟩
    · intro k
      rw [hval, hq]
      exact mem_delete_s3 _ s3 k

/-- C6 witness: deleting module "m" from a partition holding its metadata (with one
media blob) and one problem child succeeds, empties the partition, and removes
exactly the referenced blob key; tried concretely via the theorem. -/
theorem C6_delete_module_cascade_spot :
    (delete_module "m" sampleModuleTable sampleBucket).1 =
        .ok ⟨"m", "Module deleted"⟩ ∧
      table_query (delete_module "m" sampleModuleTable sampleBucket).2.1
        (playbookPk "m") = [] ∧
      ("img/a.png" ∈ (delete_module "m" sampleModuleTable sampleBucket).2.2 ↔
        ("img/a.png" ∈ sampleBucket ∧
          "img/a.png" ∉ collect_s3_keys (table_query sampleModuleTable
            (playbookPk "m")))) := by
  have h := C6_delete_module_cascade "m" sampleModuleTable sampleBucket (by decide)
  exact ⟨h.1, h.2.1, h.2.2 "img/a.png"⟩

/-- C7: module update delete-list semantics. On an existing module the operation
returns {slug, "Module updated"} (200) whatever the module-field set, upsert list
and delete list contain - in particular when all are empty or no-ops - and the
delete-loop body is a silent no-op for an id with no child document, while for an
existing child it removes exactly that child's media blob keys from the bucket and
then deletes the document. (The upsert hypothesis is the reachable-state guarantee
that existing children carry a createdAt.) -/
theorem C7_update_module_delete_semantics (slug ts : String) (u : ModuleUpdate)
    (t : Table) (s3 : List String) (st : Table × List String) (pid : String)
    (hmod : (get_item t (playbookPk slug) "METADATA").isSome = true)
    (hwell : ∀ p ∈ u.upsert_problems.getD [], ∀ e,
      get_item t (playbookPk slug) (problemSk p.id) = some e →
        (getAttr e "createdAt").isSome = true) :
    (update_module slug u ts t s3).1 = .ok ⟨slug, "Module updated"⟩ ∧
      (match get_item st.1 (playbookPk slug) (problemSk pid) with
       | none => deleteOneProblem slug st pid = st
       | some e =>
         get_item (deleteOneProblem slug st pid).1 (playbookPk slug)
             (problemSk pid) = none ∧
           ∀ k : String, k ∈ (deleteOneProblem slug st pid).2 ↔
             (k ∈ st.2 ∧ k ∉ collect_s3_keys [e])) := by
  constructor
  · obtain ⟨me, hme⟩ := Option.isSome_iff_exists.mp hmod
    have hwell1 : ∀ p ∈ u.upsert_problems.getD [], ∀ e,
        get_item (updateModuleMetadata slug ts u t) (playbookPk slug)
          (problemSk p.id) = some e → (getAttr e "createdAt").isSome = true := by
      intro p hp e he
      rw [get_item_problem_updateModuleMetadata] at he
      exact hwell p hp e he
    obtain ⟨its, hits⟩ :=
      buildUpsertItems_ok slug ts (updateModuleMetadata slug ts u t)
        (u.upsert_problems.getD []) hwell1
    simp [update_module, hme, hits]
  · cases hg : get_item st.1 (playbookPk slug) (problemSk pid) with
    | none => simp [deleteOneProblem, hg]
    | some e =>
      have hred : deleteOneProblem slug st pid =
          (delete_item st.1 (playbookPk slug) (problemSk pid),
           delete_s3_objects (collect_s3_keys [e]) st.2) := by
        simp [deleteOneProblem, hg]
      constructor
      · rw [hred]
        exact get_item_delete_item_self st.1 (playbookPk slug) (problemSk pid)
      · intro k
        rw [hred]
        exact mem_delete_s3 _ st.2 k

/-- C7 witness: an all-empty update of an existing module returns the success
marker, and deleting an id with no child document leaves the (table, bucket) state
untouched; tried concretely via the theorem. -/
theorem C7_update_module_delete_semantics_spot :
    (update_module "m" ⟨none, none, none, none, none, none, none⟩ "t0"
        [[("PK", AttrVal.s "PLAYBOOK#m"), ("SK", AttrVal.s "METADATA")]] []).1 =
      .ok ⟨"m", "Module updated"⟩ ∧
    deleteOneProblem "m" ([], []) "42" = ([], []) := by
  have h := C7_update_module_delete_semantics "m" "t0"
    ⟨none, none, none, none, none, none, none⟩
    [[("PK", AttrVal.s "PLAYBOOK#m"), ("SK", AttrVal.s "METADATA")]] []
    ([], []) "42" (by decide) (by simp)
  exact ⟨h.1, h.2⟩
